import Mathlib

/-!
Shallow embedding of the credential store of `mcp-imap-server`
(`src/mcp_imap_server/credentials.py`).

The component reconciles two storage backends:
  * a TOML config file holding non-secret account metadata
    (`_read_config` / `_write_config`), and
  * an OS keyring holding the passwords
    (`keyring.set_password` / `get_password` / `delete_password`).

We model the world as an explicit state `St` (config file contents, keyring
contents, keyring backend, and fault-injection flags that decide whether each
external call raises), and each `CredentialManager` method as a pure function
from `St` to a result (`Except CredErr _`, exceptions becoming `.error`)
paired with the successor state.  Python dicts are modelled as association
lists with unique keys (insertion order preserved, as in Python).
-/

namespace MCPImap

/-- Lookup in an association list: the value bound to the first occurrence of
the key (Python dict access `d[k]` / `k in d`). -/
def lookupA {α : Type} : List (String × α) → String → Option α
  | [], _ => none
  | (a, b) :: t, k => if a = k then some b else lookupA t k

/-- Update-or-insert in an association list: replaces the value at the first
occurrence of the key in place, or appends a fresh binding at the end
(Python dict assignment `d[k] = v`, which preserves insertion order). -/
def setA {α : Type} : List (String × α) → String → α → List (String × α)
  | [], k, v => [(k, v)]
  | (a, b) :: t, k, v => if a = k then (k, v) :: t else (a, b) :: setA t k v

/-- Deletion from an association list (Python `del d[k]`).  Keys are unique in
every list arising from a Python dict, so filtering every binding of the key
coincides with removing the single one. -/
def eraseA {α : Type} (l : List (String × α)) (k : String) : List (String × α) :=
  l.filter (fun p => p.1 ≠ k)

/-- One entry of the `accounts` table of the config document.  `password` is
the deprecated inline plaintext field: `none` for a migrated record, `some _`
for a legacy record awaiting migration. -/
structure AccountRecord where
  username : String
  server : String
  password : Option String
  deriving DecidableEq, Repr

/-- The parsed config document.  `accounts = none` models the absence of the
top-level `accounts` key (`"accounts" not in config`). -/
structure Config where
  accounts : Option (List (String × AccountRecord))
  deriving DecidableEq, Repr

/-- The on-disk state of the config file: missing, present but unparseable
(carrying its raw text), or present and well-formed. -/
inductive ConfigFile where
  | absent
  | corrupt (raw : String)
  | wellFormed (config : Config)
  deriving DecidableEq, Repr

/-- The keyring backend object returned by `keyring.get_keyring()`:
its class module and name, and the optional `name` / `priority` attributes
(`getattr` with default `"Unknown"`). -/
structure Backend where
  module : String
  clsName : String
  name : Option String
  priority : Option String
  deriving DecidableEq, Repr

/-- The world state threaded through every operation: durable config file,
keyring contents (keyed by `"account:<name>"`), the active keyring backend
(`none` = `keyring.get_keyring()` raises, with message `backendErrMsg`), and
fault-injection flags for each external call that can raise. -/
structure St where
  file : ConfigFile
  secrets : List (String × String)
  backend : Option Backend
  backendErrMsg : String
  /-- `keyring.set_password` raises. -/
  kSetFails : Bool
  /-- `keyring.get_password` raises. -/
  kGetFails : Bool
  /-- `keyring.delete_password` raises for a reason other than absence. -/
  kDeleteFails : Bool
  /-- `_write_config` raises. -/
  cfgWriteFails : Bool
  deriving DecidableEq, Repr

/-- A convenient all-healthy empty state. -/
def St.init : St :=
  { file := .absent, secrets := [], backend := none, backendErrMsg := ""
    kSetFails := false, kGetFails := false, kDeleteFails := false
    cfgWriteFails := false }

/-- `AccountCredentials` dataclass. -/
structure AccountCredentials where
  username : String
  password : String
  server : String
  deriving DecidableEq, Repr

/-- The `CredentialError` subclasses that can escape a `CredentialManager`
method, plus `rawWrite` for an exception of `_write_config` propagating
unwrapped (the migration path of `get_account` and `remove_account` do not
catch it). -/
inductive CredErr where
  | keyringStorage
  | configSave
  | passwordNotFound
  | keyringRetrieval
  | rawWrite
  deriving DecidableEq, Repr

/-- Exceptions raised inside the `try` block of the keyring-read branch of
`get_account`: `_raise_password_not_found()` or a failure of
`keyring.get_password` itself. -/
inductive GetExc where
  | passwordNotFound
  | backendFailure
  deriving DecidableEq, Repr

/-- `CredentialManager._get_keyring_key`. -/
def getKeyringKey (accountName : String) : String :=
  "account:" ++ accountName

/-- `CredentialManager._read_config`: `{}` when the file is missing, `{}` when
parsing raises (`except Exception: return {}`), the parsed document
otherwise. -/
def readConfig : ConfigFile → Config
  | .absent => ⟨none⟩
  | .corrupt _ => ⟨none⟩
  | .wellFormed c => c

/-- `CredentialManager.add_account`.  Stores the password in the keyring,
then rewrites the config with the account's metadata (no password field).
If the config write fails, attempts to delete the just-written keyring entry
(`except Exception: pass`) and raises `ConfigSaveError`. -/
def addAccount (name username password server : String) (st : St) :
    Except CredErr Unit × St :=
  if st.kSetFails then
    (.error .keyringStorage, st)
  else
    let st1 : St :=
      { st with secrets := setA st.secrets (getKeyringKey name) password }
    let config := readConfig st1.file
    let accounts := config.accounts.getD []
    let accounts' := setA accounts name ⟨username, server, none⟩
    if st1.cfgWriteFails then
      let st2 : St :=
        if st1.kDeleteFails then st1
        else { st1 with secrets := eraseA st1.secrets (getKeyringKey name) }
      (.error .configSave, st2)
    else
      (.ok (), { st1 with file := .wellFormed ⟨some accounts'⟩ })

/-- The `try` block of the keyring branch of `get_account`, together with its
`except Exception` handler: any exception of the block — including the
`PasswordNotFoundError` raised by `_raise_password_not_found` when
`get_password` returns `None` — is replaced by `KeyringRetrievalError`. -/
def tryGetPassword (st : St) (key : String) : Except CredErr String :=
  let attempt : Except GetExc String :=
    if st.kGetFails then .error .backendFailure
    else
      match lookupA st.secrets key with
      | none => .error .passwordNotFound
      | some pw => .ok pw
  match attempt with
  | .ok pw => .ok pw
  | .error _ => .error .keyringRetrieval

/-- `CredentialManager.get_account`.  `None` when the account is unknown;
legacy records are migrated (password written to the keyring, inline field
deleted, config rewritten) and answered from the plaintext value; migrated
records are answered from the keyring. -/
def getAccount (name : String) (st : St) :
    Except CredErr (Option AccountCredentials) × St :=
  let config := readConfig st.file
  match config.accounts with
  | none => (.ok none, st)
  | some accounts =>
    match lookupA accounts name with
    | none => (.ok none, st)
    | some record =>
      match record.password with
      | some plaintext =>
        if st.kSetFails then
          (.error .keyringStorage, st)
        else
          let st1 : St :=
            { st with secrets := setA st.secrets (getKeyringKey name) plaintext }
          let accounts' := setA accounts name { record with password := none }
          if st1.cfgWriteFails then
            (.error .rawWrite, st1)
          else
            (.ok (some ⟨record.username, plaintext, record.server⟩),
              { st1 with file := .wellFormed ⟨some accounts'⟩ })
      | none =>
        match tryGetPassword st (getKeyringKey name) with
        | .error e => (.error e, st)
        | .ok pw => (.ok (some ⟨record.username, pw, record.server⟩), st)

/-- `CredentialManager.list_accounts`: the keys of the `accounts` table, `[]`
when the key is absent. -/
def listAccounts (st : St) : List String :=
  match (readConfig st.file).accounts with
  | none => []
  | some accounts => accounts.map Prod.fst

/-- `CredentialManager.remove_account`.  `false` when the account is unknown;
otherwise deletes the keyring entry (absence and other failures are both
swallowed, the latter with a warning), deletes the record — dropping the
`accounts` table entirely when it becomes empty — persists, and returns
`true`. -/
def removeAccount (name : String) (st : St) : Except CredErr Bool × St :=
  let config := readConfig st.file
  match config.accounts with
  | none => (.ok false, st)
  | some accounts =>
    match lookupA accounts name with
    | none => (.ok false, st)
    | some _ =>
      let st1 : St :=
        match lookupA st.secrets (getKeyringKey name) with
        | none => st
        | some _ =>
          if st.kDeleteFails then st
          else { st with secrets := eraseA st.secrets (getKeyringKey name) }
      let accounts' := eraseA accounts name
      let config' : Config := if accounts'.isEmpty then ⟨none⟩ else ⟨some accounts'⟩
      if st1.cfgWriteFails then
        (.error .rawWrite, st1)
      else
        (.ok true, { st1 with file := .wellFormed config' })

/-- `CredentialManager.get_keyring_info`: identification of the active
backend, or `{"error": str(e)}` when `keyring.get_keyring()` raises. -/
def getKeyringInfo (st : St) : List (String × String) :=
  match st.backend with
  | some b =>
    [("backend", b.module ++ "." ++ b.clsName),
     ("name", b.name.getD "Unknown"),
     ("priority", b.priority.getD "Unknown")]
  | none => [("error", st.backendErrMsg)]

/-! ### Association-list lemmas -/

theorem lookupA_setA_self {α : Type} (l : List (String × α)) (k : String) (v : α) :
    lookupA (setA l k v) k = some v := by
  induction l with
  | nil => simp [setA, lookupA]
  | cons hd t ih =>
    obtain ⟨a, b⟩ := hd
    by_cases h : a = k <;> simp [setA, lookupA, h, ih]

theorem lookupA_setA_ne {α : Type} (l : List (String × α)) (k k' : String) (v : α)
    (h : k' ≠ k) : lookupA (setA l k v) k' = lookupA l k' := by
  induction l with
  | nil => simp [setA, lookupA, Ne.symm h]
  | cons hd t ih =>
    obtain ⟨a, b⟩ := hd
    by_cases ha : a = k
    · subst ha
      simp [setA, lookupA, Ne.symm h]
    · simp [setA, lookupA, ha, ih]

theorem lookupA_eraseA_self {α : Type} (l : List (String × α)) (k : String) :
    lookupA (eraseA l k) k = none := by
  induction l with
  | nil => rfl
  | cons hd t ih =>
    obtain ⟨a, b⟩ := hd
    by_cases h : a = k
    · simpa [eraseA, List.filter_cons, h] using ih
    · simpa [eraseA, List.filter_cons, h, lookupA] using ih

theorem lookupA_eraseA_ne {α : Type} (l : List (String × α)) (k k' : String)
    (h : k' ≠ k) : lookupA (eraseA l k) k' = lookupA l k' := by
  induction l with
  | nil => rfl
  | cons hd t ih =>
    obtain ⟨a, b⟩ := hd
    by_cases ha : a = k
    · subst ha
      simpa [eraseA, List.filter_cons, lookupA, Ne.symm h] using ih
    · by_cases ha' : a = k'
      · subst ha'
        simp [eraseA, List.filter_cons, lookupA, ha, h]
      · simpa [eraseA, List.filter_cons, lookupA, ha, ha'] using ih

/-- Membership among the keys of an association list coincides with a
successful lookup. -/
theorem mem_keys_iff_lookupA {α : Type} (l : List (String × α)) (k : String) :
    k ∈ l.map Prod.fst ↔ (lookupA l k).isSome := by
  induction l with
  | nil => simp [lookupA]
  | cons hd t ih =>
    obtain ⟨a, b⟩ := hd
    by_cases h : a = k
    · simp [lookupA, h]
    · simp [lookupA, h, Ne.symm h, ih]

/-- `tryGetPassword` never lets `PasswordNotFoundError` escape: the
`except Exception` handler converts every failure of the `try` block to
`KeyringRetrievalError`. -/
theorem tryGetPassword_not_passwordNotFound (st : St) (key : String) :
    tryGetPassword st key ≠ .error .passwordNotFound := by
  by_cases h : st.kGetFails <;>
    · simp only [tryGetPassword, h]
      cases lookupA st.secrets key <;> simp

/-- `get_account` on a name with no record returns `None` and leaves the state
unchanged. -/
theorem getAccount_unknown (name : String) (st : St)
    (h : lookupA ((readConfig st.file).accounts.getD []) name = none) :
    getAccount name st = (.ok none, st) := by
  cases hacc : (readConfig st.file).accounts with
  | none => simp [getAccount, hacc]
  | some accounts =>
    rw [hacc, Option.getD_some] at h
    simp [getAccount, hacc, h]

/-- A name with no record in the config is not listed. -/
theorem not_mem_listAccounts (name : String) (st : St)
    (h : lookupA ((readConfig st.file).accounts.getD []) name = none) :
    name ∉ listAccounts st := by
  cases hacc : (readConfig st.file).accounts with
  | none => simp [listAccounts, hacc]
  | some accounts =>
    rw [hacc, Option.getD_some] at h
    simp only [listAccounts, hacc]
    rw [mem_keys_iff_lookupA, h]
    simp

/-! ### Claims -/

/-- C1: after a successful `add_account(name, username, password, server)`
(keyring write, config write and keyring read all healthy), `get_account name`
returns exactly those credentials. -/
theorem c1_add_get_roundtrip (name username password server : String) (st : St)
    (hset : st.kSetFails = false) (hwrite : st.cfgWriteFails = false)
    (hget : st.kGetFails = false) :
    (addAccount name username password server st).1 = .ok () ∧
    (getAccount name (addAccount name username password server st).2).1 =
      .ok (some ⟨username, password, server⟩) := by
  simp [addAccount, getAccount, tryGetPassword, readConfig, hset, hwrite, hget,
    lookupA_setA_self]

/-- C1 witness at a concrete input. -/
theorem c1_add_get_roundtrip_witness :
    St.init.kSetFails = false ∧ St.init.cfgWriteFails = false ∧
    St.init.kGetFails = false ∧
    (addAccount "work" "alice" "s3cr3t" "imap.example.com" St.init).1 = .ok () ∧
    (getAccount "work"
        (addAccount "work" "alice" "s3cr3t" "imap.example.com" St.init).2).1 =
      .ok (some ⟨"alice", "s3cr3t", "imap.example.com"⟩) :=
  ⟨rfl, rfl, rfl,
    c1_add_get_roundtrip "work" "alice" "s3cr3t" "imap.example.com" St.init
      rfl rfl rfl⟩

/-- C6: `remove_account` on a name with no record returns `false`, raises
nothing, and leaves the whole state (config file and secret store)
untouched. -/
theorem c6_remove_unknown (name : String) (st : St)
    (h : lookupA ((readConfig st.file).accounts.getD []) name = none) :
    removeAccount name st = (.ok false, st) := by
  cases hacc : (readConfig st.file).accounts with
  | none => simp [removeAccount, hacc]
  | some accounts =>
    rw [hacc] at h
    simp only [Option.getD] at h
    simp [removeAccount, hacc, h]

/-- C6 witness at a concrete input. -/
theorem c6_remove_unknown_witness :
    lookupA ((readConfig St.init.file).accounts.getD []) "ghost" = none ∧
    removeAccount "ghost" St.init = (.ok false, St.init) :=
  ⟨rfl, c6_remove_unknown "ghost" St.init rfl⟩

/-- C7: `list_accounts` enumerates exactly the names recorded in the config's
`accounts` table (membership coincides with a successful metadata lookup) and
depends only on the config file — two states with the same file, however their
secret stores differ, list identically, so an account with a missing secret
still appears. -/
theorem c7_list_metadata_only (st st' : St) (name : String)
    (hfile : st.file = st'.file) :
    (name ∈ listAccounts st ↔
      (lookupA ((readConfig st.file).accounts.getD []) name).isSome) ∧
    listAccounts st = listAccounts st' := by
  constructor
  · cases hacc : (readConfig st.file).accounts with
    | none => simp [listAccounts, hacc, lookupA]
    | some accounts =>
      simp only [listAccounts, hacc, Option.getD_some]
      exact mem_keys_iff_lookupA accounts name
  · simp [listAccounts, hfile]

/-- C7 witness: a state whose lone account has no secret stored, against a
state with the same file and a different secret store. -/
theorem c7_list_metadata_only_witness :
    ({ St.init with
        file := .wellFormed ⟨some [("work", ⟨"alice", "imap.example.com", none⟩)]⟩ } : St).file =
      ({ St.init with
          file := .wellFormed ⟨some [("work", ⟨"alice", "imap.example.com", none⟩)]⟩
          secrets := [("account:other", "pw")] } : St).file ∧
    ("work" ∈ listAccounts
        { St.init with
          file := .wellFormed ⟨some [("work", ⟨"alice", "imap.example.com", none⟩)]⟩ } ↔
      (lookupA (((readConfig ({ St.init with
          file := .wellFormed ⟨some [("work", ⟨"alice", "imap.example.com", none⟩)]⟩ } : St).file).accounts).getD [])
        "work").isSome) ∧
    listAccounts
        { St.init with
          file := .wellFormed ⟨some [("work", ⟨"alice", "imap.example.com", none⟩)]⟩ } =
      listAccounts
        { St.init with
          file := .wellFormed ⟨some [("work", ⟨"alice", "imap.example.com", none⟩)]⟩
          secrets := [("account:other", "pw")] } :=
  ⟨rfl,
    c7_list_metadata_only
      { St.init with
        file := .wellFormed ⟨some [("work", ⟨"alice", "imap.example.com", none⟩)]⟩ }
      { St.init with
        file := .wellFormed ⟨some [("work", ⟨"alice", "imap.example.com", none⟩)]⟩
        secrets := [("account:other", "pw")] }
      "work" rfl⟩

/-- C10: `get_keyring_info` depends only on the active backend, never on the
stored secrets — any two states agreeing on the backend (in particular, states
differing only in their secret stores) produce identical output — and it is
total: when obtaining the backend fails it returns an error-describing mapping
instead of raising. -/
theorem c10_keyring_info_independent (st st' : St)
    (hb : st.backend = st'.backend) (he : st.backendErrMsg = st'.backendErrMsg) :
    getKeyringInfo st = getKeyringInfo st' ∧
    (st.backend = none → getKeyringInfo st = [("error", st.backendErrMsg)]) := by
  constructor
  · simp [getKeyringInfo, hb, he]
  · intro h
    simp [getKeyringInfo, h]

/-- C10 witness: two states differing only in stored secrets. -/
theorem c10_keyring_info_independent_witness :
    ({ St.init with secrets := [("account:work", "s3cr3t")] } : St).backend =
      St.init.backend ∧
    ({ St.init with secrets := [("account:work", "s3cr3t")] } : St).backendErrMsg =
      St.init.backendErrMsg ∧
    getKeyringInfo { St.init with secrets := [("account:work", "s3cr3t")] } =
      getKeyringInfo St.init ∧
    (({ St.init with secrets := [("account:work", "s3cr3t")] } : St).backend = none →
      getKeyringInfo { St.init with secrets := [("account:work", "s3cr3t")] } =
        [("error", ({ St.init with secrets := [("account:work", "s3cr3t")] } : St).backendErrMsg)]) :=
  ⟨rfl, rfl,
    (c10_keyring_info_independent _ St.init rfl rfl).1,
    (c10_keyring_info_independent _ St.init rfl rfl).2⟩

/-- A known account whose record carries no inline password, with a healthy
keyring backend and no stored secret for it. -/
def c2State : St :=
  { St.init with
    file := .wellFormed ⟨some [("work", ⟨"alice", "imap.example.com", none⟩)]⟩ }

/-- C2: the two error kinds ARE conflated.  On a known account with no inline
password and no stored secret, a healthy backend, `get_account` raises
`KeyringRetrievalError`, because `_raise_password_not_found()` executes inside
the `try` block whose `except Exception` handler rewraps every exception —
`PasswordNotFoundError` included — as `KeyringRetrievalError`; indeed
`get_account` can never surface `PasswordNotFoundError` at all. -/
theorem c2_missing_secret_conflated :
    (getAccount "work" c2State).1 = .error .keyringRetrieval ∧
    ∀ (st : St) (name : String),
      (getAccount name st).1 ≠ .error .passwordNotFound := by
  constructor
  · rfl
  · intro st name
    simp only [getAccount]
    cases hacc : (readConfig st.file).accounts with
    | none => simp
    | some accounts =>
      cases hrec : lookupA accounts name with
      | none => simp [hrec]
      | some record =>
        cases hpw : record.password with
        | some plaintext =>
          cases hset : st.kSetFails with
          | true => simp [hrec, hpw, hset]
          | false => cases hw : st.cfgWriteFails <;> simp [hrec, hpw, hset, hw]
        | none =>
          cases htry : tryGetPassword st (getKeyringKey name) with
          | error e =>
            have hne := tryGetPassword_not_passwordNotFound st (getKeyringKey name)
            rw [htry] at hne
            simp only [hrec, hpw, htry]
            simpa using hne
          | ok pw => simp [hrec, hpw, htry]

/-- C3: when the keyring write of `add_account` succeeds but the config write
fails, the call raises `ConfigSaveError`, the just-written secret has been
deleted by the rollback, the config file is untouched, and (for a fresh name)
`list_accounts` does not contain the name. -/
theorem c3_add_rollback (name username password server : String) (st : St)
    (hset : st.kSetFails = false) (hwrite : st.cfgWriteFails = true)
    (hdel : st.kDeleteFails = false)
    (hnew : lookupA ((readConfig st.file).accounts.getD []) name = none) :
    (addAccount name username password server st).1 = .error .configSave ∧
    lookupA (addAccount name username password server st).2.secrets
      (getKeyringKey name) = none ∧
    (addAccount name username password server st).2.file = st.file ∧
    name ∉ listAccounts (addAccount name username password server st).2 := by
  have hstate :
      addAccount name username password server st =
        (.error .configSave,
          { st with
            secrets := eraseA (setA st.secrets (getKeyringKey name) password)
              (getKeyringKey name) }) := by
    simp [addAccount, hset, hwrite, hdel]
  refine ⟨by rw [hstate], ?_, by rw [hstate], ?_⟩
  · rw [hstate]
    exact lookupA_eraseA_self _ _
  · rw [hstate]
    exact not_mem_listAccounts name _ hnew

/-- C3 witness at a concrete input. -/
theorem c3_add_rollback_witness :
    ({ St.init with cfgWriteFails := true } : St).kSetFails = false ∧
    ({ St.init with cfgWriteFails := true } : St).cfgWriteFails = true ∧
    ({ St.init with cfgWriteFails := true } : St).kDeleteFails = false ∧
    lookupA ((readConfig ({ St.init with cfgWriteFails := true } : St).file).accounts.getD [])
      "work" = none ∧
    (addAccount "work" "alice" "s3cr3t" "imap.example.com"
        { St.init with cfgWriteFails := true }).1 = .error .configSave ∧
    lookupA (addAccount "work" "alice" "s3cr3t" "imap.example.com"
        { St.init with cfgWriteFails := true }).2.secrets
      (getKeyringKey "work") = none ∧
    (addAccount "work" "alice" "s3cr3t" "imap.example.com"
        { St.init with cfgWriteFails := true }).2.file =
      ({ St.init with cfgWriteFails := true } : St).file ∧
    "work" ∉ listAccounts (addAccount "work" "alice" "s3cr3t" "imap.example.com"
        { St.init with cfgWriteFails := true }).2 := by
  refine ⟨rfl, rfl, rfl, rfl, ?_⟩
  exact c3_add_rollback "work" "alice" "s3cr3t" "imap.example.com"
    { St.init with cfgWriteFails := true } rfl rfl rfl rfl

/-- C4: on a legacy record the first `get_account` returns credentials built
from the inline plaintext, rewrites the config so the record no longer has a
password field, stores the password in the keyring under the account's key,
and a second `get_account` returns the same credentials with NO state change
at all (in particular no further config write). -/
theorem c4_migration_idempotent (name u s pw : String) (st : St)
    (accounts : List (String × AccountRecord))
    (hacc : (readConfig st.file).accounts = some accounts)
    (hrec : lookupA accounts name = some ⟨u, s, some pw⟩)
    (hset : st.kSetFails = false) (hwrite : st.cfgWriteFails = false)
    (hget : st.kGetFails = false) :
    (getAccount name st).1 = .ok (some ⟨u, pw, s⟩) ∧
    lookupA ((readConfig (getAccount name st).2.file).accounts.getD []) name =
      some ⟨u, s, none⟩ ∧
    lookupA (getAccount name st).2.secrets (getKeyringKey name) = some pw ∧
    getAccount name (getAccount name st).2 =
      (.ok (some ⟨u, pw, s⟩), (getAccount name st).2) := by
  have hstate :
      getAccount name st =
        (.ok (some ⟨u, pw, s⟩),
          { st with
            secrets := setA st.secrets (getKeyringKey name) pw
            file := .wellFormed ⟨some (setA accounts name ⟨u, s, none⟩)⟩ }) := by
    simp [getAccount, hacc, hrec, hset, hwrite]
  refine ⟨by rw [hstate], ?_, ?_, ?_⟩
  · rw [hstate]
    simp [readConfig, lookupA_setA_self]
  · rw [hstate]
    exact lookupA_setA_self _ _ _
  · rw [hstate]
    simp [getAccount, readConfig, lookupA_setA_self, tryGetPassword, hget]

/-- C4 witness: the spec's concrete migration scenario. -/
theorem c4_migration_idempotent_witness :
    (readConfig ({ St.init with
        file := .wellFormed ⟨some [("old", ⟨"bob", "imap.x.com", some "plain"⟩)]⟩ } : St).file).accounts =
      some [("old", ⟨"bob", "imap.x.com", some "plain"⟩)] ∧
    lookupA [("old", (⟨"bob", "imap.x.com", some "plain"⟩ : AccountRecord))] "old" =
      some ⟨"bob", "imap.x.com", some "plain"⟩ ∧
    (getAccount "old" { St.init with
        file := .wellFormed ⟨some [("old", ⟨"bob", "imap.x.com", some "plain"⟩)]⟩ }).1 =
      .ok (some ⟨"bob", "plain", "imap.x.com"⟩) ∧
    lookupA ((readConfig (getAccount "old" { St.init with
        file := .wellFormed ⟨some [("old", ⟨"bob", "imap.x.com", some "plain"⟩)]⟩ }).2.file).accounts.getD [])
      "old" = some ⟨"bob", "imap.x.com", none⟩ ∧
    lookupA (getAccount "old" { St.init with
        file := .wellFormed ⟨some [("old", ⟨"bob", "imap.x.com", some "plain"⟩)]⟩ }).2.secrets
      (getKeyringKey "old") = some "plain" ∧
    getAccount "old" (getAccount "old" { St.init with
        file := .wellFormed ⟨some [("old", ⟨"bob", "imap.x.com", some "plain"⟩)]⟩ }).2 =
      (.ok (some ⟨"bob", "plain", "imap.x.com"⟩),
        (getAccount "old" { St.init with
          file := .wellFormed ⟨some [("old", ⟨"bob", "imap.x.com", some "plain"⟩)]⟩ }).2) := by
  refine ⟨rfl, rfl, ?_⟩
  exact c4_migration_idempotent "old" "bob" "imap.x.com" "plain"
    { St.init with
      file := .wellFormed ⟨some [("old", ⟨"bob", "imap.x.com", some "plain"⟩)]⟩ }
    [("old", ⟨"bob", "imap.x.com", some "plain"⟩)] rfl rfl rfl rfl rfl

/-- C5: `remove_account` on an existing account returns `true`, after which
the secret for the account is gone (an already-absent secret being a no-op),
`get_account` returns `None` without state change, and the name is no longer
listed. -/
theorem c5_remove_existing (name : String) (st : St)
    (accounts : List (String × AccountRecord)) (r : AccountRecord)
    (hacc : (readConfig st.file).accounts = some accounts)
    (hrec : lookupA accounts name = some r)
    (hwrite : st.cfgWriteFails = false) (hdel : st.kDeleteFails = false) :
    (removeAccount name st).1 = .ok true ∧
    lookupA (removeAccount name st).2.secrets (getKeyringKey name) = none ∧
    getAccount name (removeAccount name st).2 =
      (.ok none, (removeAccount name st).2) ∧
    name ∉ listAccounts (removeAccount name st).2 := by
  have hlook : ∀ st2 : St,
      st2.file = .wellFormed
        (if (eraseA accounts name).isEmpty then ⟨none⟩
          else ⟨some (eraseA accounts name)⟩) →
      lookupA ((readConfig st2.file).accounts.getD []) name = none := by
    intro st2 h2
    by_cases he : (eraseA accounts name).isEmpty <;>
      simp [h2, he, readConfig, lookupA, lookupA_eraseA_self]
  obtain ⟨st2, hstate, hsec2, hfile2⟩ :
      ∃ st2 : St, removeAccount name st = (.ok true, st2) ∧
        lookupA st2.secrets (getKeyringKey name) = none ∧
        lookupA ((readConfig st2.file).accounts.getD []) name = none := by
    cases hsec : lookupA st.secrets (getKeyringKey name) with
    | none =>
      refine ⟨{ st with file := ConfigFile.wellFormed (if (eraseA accounts name).isEmpty then ⟨none⟩ else ⟨some (eraseA accounts name)⟩) }, ?_, hsec, hlook _ rfl⟩
      simp [removeAccount, hacc, hrec, hwrite, hsec]
    | some pw =>
      refine ⟨{ st with secrets := eraseA st.secrets (getKeyringKey name), file := ConfigFile.wellFormed (if (eraseA accounts name).isEmpty then ⟨none⟩ else ⟨some (eraseA accounts name)⟩) }, ?_, lookupA_eraseA_self _ _, hlook _ rfl⟩
      simp [removeAccount, hacc, hrec, hwrite, hdel, hsec]
  refine ⟨by rw [hstate], by rw [hstate]; exact hsec2, ?_, ?_⟩
  · rw [hstate]
    exact getAccount_unknown name st2 hfile2
  · rw [hstate]
    exact not_mem_listAccounts name st2 hfile2

/-- C5 witness at a concrete input. -/
theorem c5_remove_existing_witness :
    (readConfig ({ St.init with
        file := .wellFormed ⟨some [("work", ⟨"alice", "imap.example.com", none⟩)]⟩
        secrets := [("account:work", "s3cr3t")] } : St).file).accounts =
      some [("work", ⟨"alice", "imap.example.com", none⟩)] ∧
    lookupA [("work", (⟨"alice", "imap.example.com", none⟩ : AccountRecord))] "work" =
      some ⟨"alice", "imap.example.com", none⟩ ∧
    (removeAccount "work" { St.init with
        file := .wellFormed ⟨some [("work", ⟨"alice", "imap.example.com", none⟩)]⟩
        secrets := [("account:work", "s3cr3t")] }).1 = .ok true ∧
    lookupA (removeAccount "work" { St.init with
        file := .wellFormed ⟨some [("work", ⟨"alice", "imap.example.com", none⟩)]⟩
        secrets := [("account:work", "s3cr3t")] }).2.secrets
      (getKeyringKey "work") = none ∧
    getAccount "work" (removeAccount "work" { St.init with
        file := .wellFormed ⟨some [("work", ⟨"alice", "imap.example.com", none⟩)]⟩
        secrets := [("account:work", "s3cr3t")] }).2 =
      (.ok none, (removeAccount "work" { St.init with
        file := .wellFormed ⟨some [("work", ⟨"alice", "imap.example.com", none⟩)]⟩
        secrets := [("account:work", "s3cr3t")] }).2) ∧
    "work" ∉ listAccounts (removeAccount "work" { St.init with
        file := .wellFormed ⟨some [("work", ⟨"alice", "imap.example.com", none⟩)]⟩
        secrets := [("account:work", "s3cr3t")] }).2 := by
  refine ⟨rfl, rfl, ?_⟩
  exact c5_remove_existing "work"
    { St.init with
      file := .wellFormed ⟨some [("work", ⟨"alice", "imap.example.com", none⟩)]⟩
      secrets := [("account:work", "s3cr3t")] }
    [("work", ⟨"alice", "imap.example.com", none⟩)]
    ⟨"alice", "imap.example.com", none⟩ rfl rfl rfl rfl

/-- A state whose persisted config document exists but cannot be parsed. -/
def c8CorruptState : St :=
  { St.init with file := .corrupt "[accounts.old\nusername = bob" }

/-- C8 counterexample: with a corrupt persisted config document,
`add_account` neither fails nor preserves anything — it succeeds and persists
a document containing only the new account, silently discarding whatever the
corrupt document previously held. -/
theorem c8_corrupt_lossy_counterexample :
    (addAccount "new" "u" "p" "s" c8CorruptState).1 = .ok () ∧
    (addAccount "new" "u" "p" "s" c8CorruptState).2.file =
      .wellFormed ⟨some [("new", ⟨"u", "s", none⟩)]⟩ := by
  exact ⟨rfl, rfl⟩

/-- C8 amended: a config document that cannot be parsed is uniformly treated
as absent by every operation (`_read_config` catches the parse error and
returns `\x7b\x7d`), so reads never fail explicitly; but the policy IS silently
lossy — an operation that writes the config afterwards, such as `add_account`,
succeeds and replaces the corrupt document with one rebuilt from the empty
read, discarding whatever the corrupt document previously held. -/
theorem c8_corrupt_treated_as_absent (raw : String) (st : St)
    (hfile : st.file = .corrupt raw)
    (hset : st.kSetFails = false) (hwrite : st.cfgWriteFails = false)
    (name username password server : String) :
    readConfig st.file = ⟨none⟩ ∧
    getAccount name st = (.ok none, st) ∧
    listAccounts st = [] ∧
    removeAccount name st = (.ok false, st) ∧
    (addAccount name username password server st).1 = .ok () ∧
    (addAccount name username password server st).2.file =
      .wellFormed ⟨some [(name, ⟨username, server, none⟩)]⟩ := by
  refine ⟨by rw [hfile]; rfl, ?_, ?_, ?_, ?_, ?_⟩
  · simp [getAccount, hfile, readConfig]
  · simp [listAccounts, hfile, readConfig]
  · simp [removeAccount, hfile, readConfig]
  · simp [addAccount, hset, hwrite]
  · simp [addAccount, hset, hwrite, hfile, readConfig, setA]

/-- C8 witness at a concrete input. -/
theorem c8_corrupt_treated_as_absent_witness :
    c8CorruptState.file = .corrupt "[accounts.old\nusername = bob" ∧
    c8CorruptState.kSetFails = false ∧ c8CorruptState.cfgWriteFails = false ∧
    readConfig c8CorruptState.file = ⟨none⟩ ∧
    getAccount "old" c8CorruptState = (.ok none, c8CorruptState) ∧
    listAccounts c8CorruptState = [] ∧
    removeAccount "old" c8CorruptState = (.ok false, c8CorruptState) ∧
    (addAccount "old" "bob" "plain" "imap.x.com" c8CorruptState).1 = .ok () ∧
    (addAccount "old" "bob" "plain" "imap.x.com" c8CorruptState).2.file =
      .wellFormed ⟨some [("old", ⟨"bob", "imap.x.com", none⟩)]⟩ := by
  refine ⟨rfl, rfl, rfl, ?_⟩
  exact c8_corrupt_treated_as_absent "[accounts.old\nusername = bob"
    c8CorruptState rfl rfl rfl "old" "bob" "plain" "imap.x.com"

/-- C9: removing the last remaining account leaves a well-formed persisted
document with an empty accounts collection (the code drops the empty
`accounts` table, which every read treats as zero accounts): `list_accounts`
then returns `[]` and a subsequent `add_account` succeeds and is listed. -/
theorem c9_empty_state_wellformed (name name2 username password server : String)
    (st : St) (r : AccountRecord)
    (hacc : (readConfig st.file).accounts = some [(name, r)])
    (hwrite : st.cfgWriteFails = false) (hdel : st.kDeleteFails = false)
    (hset : st.kSetFails = false) :
    (removeAccount name st).1 = .ok true ∧
    (removeAccount name st).2.file = .wellFormed ⟨none⟩ ∧
    listAccounts (removeAccount name st).2 = [] ∧
    (addAccount name2 username password server (removeAccount name st).2).1 =
      .ok () ∧
    listAccounts
      (addAccount name2 username password server (removeAccount name st).2).2 =
      [name2] := by
  have hstate : ∃ sec, removeAccount name st =
      (.ok true,
        { st with secrets := sec, file := .wellFormed ⟨none⟩ }) := by
    cases hsec : lookupA st.secrets (getKeyringKey name) with
    | none =>
      refine ⟨st.secrets, ?_⟩
      simp [removeAccount, hacc, hwrite, hsec, lookupA, eraseA]
    | some pw =>
      refine ⟨eraseA st.secrets (getKeyringKey name), ?_⟩
      simp [removeAccount, hacc, hwrite, hdel, hsec, lookupA, eraseA]
  obtain ⟨sec, hstate⟩ := hstate
  rw [hstate]
  refine ⟨rfl, rfl, rfl, ?_, ?_⟩ <;>
    simp [addAccount, listAccounts, readConfig, hset, hwrite, setA]

/-- C9 witness at a concrete input. -/
theorem c9_empty_state_wellformed_witness :
    (readConfig ({ St.init with
        file := .wellFormed ⟨some [("work", ⟨"alice", "imap.example.com", none⟩)]⟩ } : St).file).accounts =
      some [("work", ⟨"alice", "imap.example.com", none⟩)] ∧
    (removeAccount "work" { St.init with
        file := .wellFormed ⟨some [("work", ⟨"alice", "imap.example.com", none⟩)]⟩ }).1 =
      .ok true ∧
    (removeAccount "work" { St.init with
        file := .wellFormed ⟨some [("work", ⟨"alice", "imap.example.com", none⟩)]⟩ }).2.file =
      .wellFormed ⟨none⟩ ∧
    listAccounts (removeAccount "work" { St.init with
        file := .wellFormed ⟨some [("work", ⟨"alice", "imap.example.com", none⟩)]⟩ }).2 =
      [] ∧
    (addAccount "personal" "carol" "pw2" "imap.p.com"
        (removeAccount "work" { St.init with
          file := .wellFormed ⟨some [("work", ⟨"alice", "imap.example.com", none⟩)]⟩ }).2).1 =
      .ok () ∧
    listAccounts (addAccount "personal" "carol" "pw2" "imap.p.com"
        (removeAccount "work" { St.init with
          file := .wellFormed ⟨some [("work", ⟨"alice", "imap.example.com", none⟩)]⟩ }).2).2 =
      ["personal"] := by
  refine ⟨rfl, ?_⟩
  exact c9_empty_state_wellformed "work" "personal" "carol" "pw2" "imap.p.com"
    { St.init with
      file := .wellFormed ⟨some [("work", ⟨"alice", "imap.example.com", none⟩)]⟩ }
    ⟨"alice", "imap.example.com", none⟩ rfl rfl rfl rfl

end MCPImap
